import Mathlib

/-!
Verification of the node-dashboard health engine.

The definitions below are a shallow embedding of the TypeScript source of
the repository: `src/utils/consensusSteps.ts`, the `CometBFTService` class
(vote parsing, consensus-health evaluation, app-hash divergence candidate
state machine, divergence transaction diff, `getAllData` merge), and the
`useCometBFT` polling hook.  JavaScript strings are modelled as Lean
`String` (operated on through their character lists), JS numbers that the
code treats as integers are modelled as `Int`/`Nat`, `NaN`/absent values as
`Option`, and JS float division of vote counts as exact rationals.
-/

namespace NodeDashboard

/-! ## JavaScript string primitives -/

/-- Whitespace test used by `String.prototype.trim` (ASCII subset plus NBSP). -/
def jsIsSpace (c : Char) : Bool :=
  c = ' ' || c = '\t' || c = '\n' || c = '\r' ||
  c = '\x0b' || c = '\x0c' || c = (Char.ofNat 0xa0)

/-- Model of `String.prototype.trim`. -/
def jsTrim (s : String) : String :=
  ⟨((s.data.dropWhile jsIsSpace).reverse.dropWhile jsIsSpace).reverse⟩

/-- ASCII lower-casing of one character, as `toLowerCase` acts on the
alphabet used by the dashboard's labels. -/
def lowerChar (c : Char) : Char :=
  if 'A' ≤ c ∧ c ≤ 'Z' then Char.ofNat (c.toNat + 32) else c

/-- Model of `String.prototype.toLowerCase`. -/
def jsToLower (s : String) : String := ⟨s.data.map lowerChar⟩

/-- Is `pat` a prefix of `l`? -/
def startsWith : List Char → List Char → Bool
  | _, [] => true
  | [], _ :: _ => false
  | c :: cs, p :: ps => c = p && startsWith cs ps

/-- Does `hay` contain `pat` as a contiguous substring?  Model of
`String.prototype.includes` (and of a `.test` of a literal regex). -/
def containsSub : List Char → List Char → Bool
  | [], pat => pat.isEmpty
  | c :: cs, pat => startsWith (c :: cs) pat || containsSub cs pat

/-- Model of `String.prototype.includes` on strings. -/
def jsIncludes (hay pat : String) : Bool := containsSub hay.data pat.data

/-- Decimal digit test. -/
def isDigitChar (c : Char) : Bool := '0' ≤ c && c ≤ '9'

/-- The decimal digit character for `k % 10`. -/
def digitChar (k : Nat) : Char :=
  match k with
  | 0 => '0' | 1 => '1' | 2 => '2' | 3 => '3' | 4 => '4'
  | 5 => '5' | 6 => '6' | 7 => '7' | 8 => '8' | _ => '9'

/-- Fuel-driven digit expansion; `fuel ≥ n + 1` always suffices because the
argument shrinks by a factor of ten each step. -/
def natToDigitsAux : Nat → Nat → List Char
  | 0, n => [digitChar n]
  | fuel + 1, n =>
      if n < 10 then [digitChar n]
      else natToDigitsAux fuel (n / 10) ++ [digitChar (n % 10)]

/-- Decimal digits of a natural number, most significant first
(the digit sequence JavaScript `ToString` produces for integers). -/
def natToDigits (n : Nat) : List Char := natToDigitsAux (n + 1) n

/-- JavaScript `ToString` of an integer (template-literal interpolation). -/
def jsIntToString (i : Int) : String :=
  match i with
  | .ofNat n => ⟨natToDigits n⟩
  | .negSucc n => ⟨'-' :: natToDigits (n + 1)⟩

/-- Numeric value of a (non-empty, all-digit) character list. -/
def digitsToNat (l : List Char) : Nat :=
  l.foldl (fun acc c => acc * 10 + (c.toNat - 48)) 0

/-- Model of JavaScript `Number.parseInt(s, 10)`: skip leading whitespace,
optional sign, then the maximal digit prefix; `NaN` (here `none`) when no
digit follows. -/
def jsParseInt10 (s : String) : Option Int :=
  let l := s.data.dropWhile jsIsSpace
  match l with
  | '-' :: rest =>
      let d := rest.takeWhile isDigitChar
      if d.isEmpty then none else some (-(digitsToNat d : Int))
  | '+' :: rest =>
      let d := rest.takeWhile isDigitChar
      if d.isEmpty then none else some (digitsToNat d : Int)
  | _ =>
      let d := l.takeWhile isDigitChar
      if d.isEmpty then none else some (digitsToNat d : Int)

/-! ## Consensus step classifier (`src/utils/consensusSteps.ts`) -/

/-- A telemetry value that is either a JS number or a JS string
(`step: number | string`). -/
inductive NumOrStr where
  | num (n : Int)
  | str (s : String)
deriving DecidableEq

/-- Entry of the `CONSENSUS_STEP_METADATA` table. -/
structure StepMeta where
  label : String
  description : String
  isCatchup : Bool := false
deriving DecidableEq

/-- The `CONSENSUS_STEP_METADATA` lookup table, in declaration order. -/
def CONSENSUS_STEP_METADATA : List (Int × StepMeta) :=
  [ (0, { label := "New Height",
          description := "Moving commits for the previous height and preparing a new round." }),
    (1, { label := "Proposal",
          description := "Designated proposer is broadcasting the block proposal for this round." }),
    (2, { label := "Prevote",
          description := "Validators are evaluating the proposal and broadcasting prevotes." }),
    (3, { label := "Prevote Wait",
          description := "Waiting for +2/3 prevotes or the timeout to expire." }),
    (4, { label := "Precommit",
          description := "Validators are locking on the PoLC and broadcasting precommits." }),
    (5, { label := "Precommit Wait",
          description := "Waiting for +2/3 precommits or the timeout to expire." }),
    (6, { label := "Commit",
          description := "Block reached +2/3 precommits and nodes are finalising the commit." }),
    (7, { label := "Commit Wait",
          description := "Waiting for the commit to finalise before moving to the next height." }),
    (8, { label := "Finalize Commit",
          description := "Applying the committed block and preparing the next height." }),
    (10, { label := "Catch-up Commit",
           description := "Node is replaying previously committed blocks while catching up with the chain.",
           isCatchup := true }),
    (11, { label := "Catch-up Wait",
           description := "Waiting for catch-up commit processing to finish before moving to a new height.",
           isCatchup := true }),
    (12, { label := "Catch-up Replay",
           description := "Node is replaying historical blocks to synchronise with the network.",
           isCatchup := true }),
    (13, { label := "Catch-up Replay Wait",
           description := "Waiting for replay verification before resuming normal consensus operations.",
           isCatchup := true }) ]

def DEFAULT_DESCRIPTION : String := "Consensus step as reported by the node."

def DEFAULT_CATCHUP_DESCRIPTION : String :=
  "Node is replaying previously committed blocks before rejoining live consensus."

def UNKNOWN_DESCRIPTION : String := "The node has not reported a consensus step yet."

def CATCHUP_STEP_THRESHOLD : Int := 10

def CATCHUP_INDICATORS : List String :=
  ["catchup", "catch-up", "replay", "wrong last block", "wait last block"]

/-- Lookup `CONSENSUS_STEP_METADATA[code]`. -/
def stepMetaLookup (code : Int) : Option StepMeta :=
  (CONSENSUS_STEP_METADATA.find? (fun p => p.1 == code)).map Prod.snd

/-- Output record of `normalizeConsensusStep`. -/
structure NormalizedConsensusStep where
  raw : Option NumOrStr
  code : Option Int
  label : Option String
  description : String
  isCatchup : Bool
deriving DecidableEq

/-- The `normaliseLabel` helper: `value.trim() || null`. -/
def normaliseLabel (value : Option String) : Option String :=
  match value with
  | none => none
  | some v => let t := jsTrim v; if t.isEmpty then none else some t

/-- Translation of `normalizeConsensusStep` from `src/utils/consensusSteps.ts`, rendered
clause by clause.  `none` models the `undefined`/`null` input. -/
def normalizeConsensusStep (step : Option NumOrStr) : NormalizedConsensusStep :=
  match step with
  | none =>
      { raw := none, code := none, label := none,
        description := UNKNOWN_DESCRIPTION, isCatchup := false }
  | some v =>
      -- numeric / string dispatch; JS numbers are modelled as integers,
      -- for which `Number.isFinite` always holds
      let parsed : Option Int × Option String :=
        match v with
        | .num n => (some n, none)
        | .str s =>
            let t := jsTrim s
            match jsParseInt10 t with
            | some n => (some n, none)
            | none => (none, some t)
      let code0 := parsed.1
      -- table lookup for numeric codes
      let afterCode : Option Int × Option String × String :=
        match code0 with
        | some c =>
            match stepMetaLookup c with
            | some m => (some c, some m.label, m.description)
            | none =>
                if c ≥ CATCHUP_STEP_THRESHOLD then
                  (some c, some ("Catch-up (step " ++ jsIntToString c ++ ")"),
                   DEFAULT_CATCHUP_DESCRIPTION)
                else
                  (some c, some ("Step " ++ jsIntToString c), DEFAULT_DESCRIPTION)
        | none => (none, parsed.2, DEFAULT_DESCRIPTION)
      let code1 := afterCode.1
      let label1 := afterCode.2.1
      let desc1 := afterCode.2.2
      -- normalizedLabel = normaliseLabel(label ?? (string input))
      let normalizedLabel0 :=
        normaliseLabel (label1 <|> (match v with | .str s => some s | .num _ => none))
      let normalizedText :=
        match normalizedLabel0 with
        | some l => jsToLower l
        | none => match v with | .str s => jsToLower s | .num _ => ""
      -- case-insensitive match of the label against the canonical table
      let afterEntry : Option Int × String × Bool :=
        match normalizedLabel0 with
        | some nl =>
            match CONSENSUS_STEP_METADATA.find?
                (fun p => jsToLower nl == jsToLower p.2.label) with
            | some entry =>
                ((if code1.isNone then some entry.1 else code1),
                 entry.2.description, entry.2.isCatchup)
            | none => (code1, desc1, false)
        | none => (code1, desc1, false)
      let code2 := afterEntry.1
      let desc2 := afterEntry.2.1
      let isCatchup0 := afterEntry.2.2
      -- catch-up from the numeric code
      let isCatchup1 :=
        isCatchup0 ||
          (match code2 with
           | some c =>
               (match stepMetaLookup c with
                | some m => m.isCatchup
                | none => false) || decide (c ≥ CATCHUP_STEP_THRESHOLD)
           | none => false)
      -- catch-up from indicator substrings of the label text
      let isCatchup2 :=
        if !isCatchup1 && !normalizedText.isEmpty then
          CATCHUP_INDICATORS.any (fun ind => jsIncludes normalizedText ind)
        else isCatchup1
      let desc3 :=
        if isCatchup2 && desc2 == DEFAULT_DESCRIPTION then DEFAULT_CATCHUP_DESCRIPTION
        else desc2
      let label2 :=
        match normalizedLabel0 with
        | some l => some l
        | none => match v with | .str s => some s | .num _ => none
      { raw := some v, code := code2, label := label2,
        description := desc3, isCatchup := isCatchup2 }

/-! ## Vote participation calculator (`CometBFTService`) -/

/-- Line terminators that the `.` of a JavaScript regex never matches. -/
def jsIsLineTerm (c : Char) : Bool :=
  c = '\n' || c = '\r' || c = (Char.ofNat 0x2028) || c = (Char.ofNat 0x2029)

/-- Greedy `(.*)\x7d` on `l`: the longest newline-free prefix `p` with
`p ++ '\x7d' :: q = l`; `none` when no closing brace is reachable. -/
def lastBraceSplit (l : List Char) : Option (List Char) :=
  let line := l.takeWhile (fun c => !jsIsLineTerm c)
  match line.reverse.dropWhile (fun c => !(c = '}')) with
  | '}' :: rest => some rest.reverse
  | _ => none

/-- One anchor attempt of the regex `BA\x7b(\d+):(.*)\x7d` at the head of
`l`; returns the two capture groups. -/
def tryBAMatch (l : List Char) : Option (List Char × List Char) :=
  match l with
  | c1 :: c2 :: c3 :: tail =>
      if c1 = 'B' ∧ c2 = 'A' ∧ c3 = '{' then
        let digits := tail.takeWhile isDigitChar
        if digits.isEmpty then none
        else
          match tail.dropWhile isDigitChar with
          | c4 :: tail2 =>
              if c4 = ':' then (lastBraceSplit tail2).map (fun flags => (digits, flags))
              else none
          | [] => none
      else none
  | _ => none

/-- Leftmost match of `BA\x7b(\d+):(.*)\x7d`, as `String.prototype.match`
finds it: try each start position in order. -/
def findBAMatch : List Char → Option (List Char × List Char)
  | [] => none
  | c :: rest =>
      match tryBAMatch (c :: rest) with
      | some r => some r
      | none => findBAMatch rest

/-- Characters counted as cast votes by the regex `[xX1]` of
`parseVoteRatioFromBitArray`. -/
def isAffirmativeFlag (c : Char) : Bool := c = 'x' || c = 'X' || c = '1'

/-- Translation of `parseVoteRatioFromBitArray(bitArray?: string)`.  A `none` input models
the absent argument; the empty string is falsy in JS and also yields
`null`.  The ratio is modelled as an exact rational. -/
def parseVoteRatioFromBitArray (bitArray : Option String) : Option ℚ :=
  match bitArray with
  | none => none
  | some s =>
      if s.isEmpty then none
      else
        match findBAMatch s.data with
        | none => none
        | some (digits, votesString) =>
            let total := digitsToNat digits
            if total = 0 || votesString.isEmpty then none
            else
              let voteCount := (votesString.filter isAffirmativeFlag).length
              some ((voteCount : ℚ) / (total : ℚ))

/-- A meaningful vote entry: `typeof vote === 'string' && vote.trim().length > 0`
(the model carries only strings, so just the trim test). -/
def isMeaningfulVote (vote : String) : Bool := !(jsTrim vote).isEmpty

/-- An affirmative vote entry:
`!vote.includes('<nil>') && !/nil-vote/i.test(vote)`. -/
def isAffirmativeVote (vote : String) : Bool :=
  !jsIncludes vote "<nil>" && !jsIncludes (jsToLower vote) "nil-vote"

/-- Translation of `parseVoteRatioFromVotes(votes?: string[])`. -/
def parseVoteRatioFromVotes (votes : Option (List String)) : Option ℚ :=
  match votes with
  | none => none
  | some vs =>
      if vs.length = 0 then none
      else
        let meaningfulVotes := vs.filter isMeaningfulVote
        if meaningfulVotes.length = 0 then none
        else
          let affirmativeVotes := meaningfulVotes.filter isAffirmativeVote
          some ((affirmativeVotes.length : ℚ) / (meaningfulVotes.length : ℚ))

/-- One vote set of the consensus round state (`ConsensusVoteSet`); fields
are optional because the service reads them defensively. -/
structure VoteSetLike where
  round : Option NumOrStr
  prevotes : Option (List String)
  prevotesBitArray : Option String
  precommits : Option (List String)
  precommitsBitArray : Option String

/-- Translation of `calculateVoteRatio(voteSet, type)`: prefer the bit array, fall back to
the explicit vote list. -/
def calculateVoteRatio (voteSet : Option VoteSetLike) (prevotes : Bool) : Option ℚ :=
  match voteSet with
  | none => none
  | some vs =>
      let bitArray := if prevotes then vs.prevotesBitArray else vs.precommitsBitArray
      match parseVoteRatioFromBitArray bitArray with
      | some r => some r
      | none =>
          parseVoteRatioFromVotes (if prevotes then vs.prevotes else vs.precommits)

/-- Evaluation helper: computes `parseVoteRatioFromBitArray` up to the final
(non-reducible) rational division. -/
lemma parseBitArrayEval (s : String) (digits flags : List Char) (k n : Nat)
    (h1 : s.isEmpty = false)
    (h2 : findBAMatch s.data = some (digits, flags))
    (h3 : digitsToNat digits = n) (h4 : (n = 0) = False) (h5 : flags.isEmpty = false)
    (h6 : (flags.filter isAffirmativeFlag).length = k) :
    parseVoteRatioFromBitArray (some s) = some ((k : ℚ) / (n : ℚ)) := by
  simp only [parseVoteRatioFromBitArray, h1, h2, h3, h4, h5, h6]
  simp

/-- Evaluation helper for `parseVoteRatioFromVotes`. -/
lemma parseVotesEval (vs : List String) (k n : Nat)
    (h1 : (vs.length = 0) = False)
    (h2 : (vs.filter isMeaningfulVote).length = n) (h3 : (n = 0) = False)
    (h4 : ((vs.filter isMeaningfulVote).filter isAffirmativeVote).length = k) :
    parseVoteRatioFromVotes (some vs) = some ((k : ℚ) / (n : ℚ)) := by
  simp only [parseVoteRatioFromVotes, h1, h2, h3, h4]
  simp

/-! ## Divergence diff engine (`computeDivergenceAnalysis`) -/

/-- One `frequency.set(tx, (frequency.get(tx) ?? 0) + 1)` step on a JS `Map`
modelled as an insertion-ordered association list. -/
def bumpFreq : List (String × Nat) → String → List (String × Nat)
  | [], tx => [(tx, 1)]
  | (k, v) :: rest, tx =>
      if k = tx then (k, v + 1) :: rest else (k, v) :: bumpFreq rest tx

/-- Translation of `buildTxFrequencyMap(txs)`: value → multiplicity, in first-occurrence
order (JS `Map` iteration order). -/
def buildTxFrequencyMap (txs : List String) : List (String × Nat) :=
  txs.foldl bumpFreq []

/-- Model of `frequency.get(tx) ?? 0`: first entry with the given key, else 0. -/
def freqGetD : List (String × Nat) → String → Nat
  | [], _ => 0
  | (k, c) :: rest, tx => if k = tx then c else freqGetD rest tx

/-- The multiset transaction diff computed by `computeDivergenceAnalysis`
from the two blocks' transaction lists (reference node vs monitored node). -/
def divergenceDiff (referenceTxs nodeTxs : List String) :
    List String × List String × Nat :=
  let nodeFrequency := buildTxFrequencyMap nodeTxs
  let referenceFrequency := buildTxFrequencyMap referenceTxs
  let missingTxs := referenceFrequency.flatMap (fun p =>
    let nodeCount := freqGetD nodeFrequency p.1
    if p.2 > nodeCount then List.replicate (p.2 - nodeCount) p.1 else [])
  let unexpectedTxs := nodeFrequency.flatMap (fun p =>
    let referenceCount := freqGetD referenceFrequency p.1
    if p.2 > referenceCount then List.replicate (p.2 - referenceCount) p.1 else [])
  let matchingTxCount := (referenceFrequency.map (fun p =>
    min p.2 (freqGetD nodeFrequency p.1))).sum
  (missingTxs, unexpectedTxs, matchingTxCount)

/-! ### Frequency-map lemmas -/

lemma freqGetD_bumpFreq (L : List (String × Nat)) (tx v : String) :
    freqGetD (bumpFreq L tx) v = freqGetD L v + (if tx = v then 1 else 0) := by
  induction L with
  | nil =>
      by_cases h : tx = v <;> simp [bumpFreq, freqGetD, h]
  | cons p rest ih =>
      obtain ⟨k, c⟩ := p
      by_cases hk : k = tx
      · subst hk
        by_cases hv : k = v <;> simp [bumpFreq, freqGetD, hv]
      · by_cases hv : k = v
        · subst hv
          have htx2 : ¬ tx = k := fun h => hk h.symm
          simp [bumpFreq, freqGetD, hk, htx2]
        · simp [bumpFreq, freqGetD, hk, hv, ih]

lemma keys_bumpFreq (L : List (String × Nat)) (tx : String) :
    (bumpFreq L tx).map Prod.fst =
      if tx ∈ L.map Prod.fst then L.map Prod.fst else L.map Prod.fst ++ [tx] := by
  induction L with
  | nil => simp [bumpFreq]
  | cons p rest ih =>
      obtain ⟨k, c⟩ := p
      by_cases hk : k = tx
      · subst hk
        simp [bumpFreq]
      · have hne : ¬ tx = k := fun h => hk h.symm
        by_cases hmem : tx ∈ rest.map Prod.fst <;>
          simp [bumpFreq, hk, hne, hmem, ih]

lemma nodup_keys_bumpFreq (L : List (String × Nat)) (tx : String)
    (h : (L.map Prod.fst).Nodup) : ((bumpFreq L tx).map Prod.fst).Nodup := by
  rw [keys_bumpFreq]
  by_cases hmem : tx ∈ L.map Prod.fst
  · simpa [hmem] using h
  · rw [if_neg hmem, List.nodup_append]
    exact ⟨h, List.nodup_singleton tx, by simpa using hmem⟩

lemma buildTxFrequencyMap_spec (txs : List String) :
    (∀ v, freqGetD (buildTxFrequencyMap txs) v = txs.count v) ∧
      ((buildTxFrequencyMap txs).map Prod.fst).Nodup ∧
      (∀ v, v ∈ (buildTxFrequencyMap txs).map Prod.fst ↔ v ∈ txs) := by
  suffices h : ∀ (txs : List String) (L : List (String × Nat)),
      (L.map Prod.fst).Nodup →
      (∀ v, freqGetD (txs.foldl bumpFreq L) v = freqGetD L v + txs.count v) ∧
        ((txs.foldl bumpFreq L).map Prod.fst).Nodup ∧
        (∀ v, v ∈ (txs.foldl bumpFreq L).map Prod.fst ↔
          v ∈ L.map Prod.fst ∨ v ∈ txs) by
    obtain ⟨h1, h2, h3⟩ := h txs [] (by simp)
    refine ⟨fun v => ?_, h2, fun v => ?_⟩
    · simpa [freqGetD] using h1 v
    · simpa using h3 v
  intro txs
  induction txs with
  | nil => intro L hL; simp [hL]
  | cons t ts ih =>
      intro L hL
      obtain ⟨ih1, ih2, ih3⟩ := ih (bumpFreq L t) (nodup_keys_bumpFreq L t hL)
      refine ⟨fun v => ?_, by simpa using ih2, fun v => ?_⟩
      · rw [List.foldl_cons, ih1 v, freqGetD_bumpFreq]
        by_cases hv : t = v <;> simp [hv, List.count_cons] <;> ring
      · rw [List.foldl_cons, ih3 v, keys_bumpFreq]
        by_cases hmem : t ∈ L.map Prod.fst
        · simp only [if_pos hmem]
          constructor
          · rintro (h | h)
            · exact Or.inl h
            · exact Or.inr (List.mem_cons_of_mem _ h)
          · rintro (h | h)
            · exact Or.inl h
            · rcases List.mem_cons.mp h with h | h
              · exact Or.inl (h ▸ hmem)
              · exact Or.inr h
        · simp only [if_neg hmem, List.mem_append, List.mem_singleton]
          constructor
          · rintro ((h | h) | h)
            · exact Or.inl h
            · exact Or.inr (List.mem_cons.mpr (Or.inl h))
            · exact Or.inr (List.mem_cons.mpr (Or.inr h))
          · rintro (h | h)
            · exact Or.inl (Or.inl h)
            · rcases List.mem_cons.mp h with h | h
              · exact Or.inl (Or.inr h)
              · exact Or.inr h

lemma entry_val_of_mem (L : List (String × Nat)) (p : String × Nat)
    (hnd : (L.map Prod.fst).Nodup) (hp : p ∈ L) : freqGetD L p.1 = p.2 := by
  induction L with
  | nil => cases hp
  | cons q rest ih =>
      obtain ⟨k, c⟩ := q
      rw [List.map_cons] at hnd
      have hnd' := List.nodup_cons.mp hnd
      rcases List.mem_cons.mp hp with h | h
      · subst h; simp [freqGetD]
      · have hk : ¬ k = p.1 := by
          intro he
          apply hnd'.1
          rw [he]
          exact List.mem_map.mpr ⟨p, h, rfl⟩
        have := ih hnd'.2 h
        simpa [freqGetD, hk] using this

lemma count_excess_flatMap (L : List (String × Nat)) (f : String → Nat) (v : String)
    (hnd : (L.map Prod.fst).Nodup) :
    (L.flatMap (fun p =>
        if p.2 > f p.1 then List.replicate (p.2 - f p.1) p.1 else [])).count v
      = if v ∈ L.map Prod.fst then freqGetD L v - f v else 0 := by
  induction L with
  | nil => simp
  | cons q rest ih =>
      obtain ⟨k, c⟩ := q
      rw [List.map_cons] at hnd
      have hnd' := List.nodup_cons.mp hnd
      rw [List.flatMap_cons, List.count_append, ih hnd'.2]
      by_cases hv : k = v
      · subst hv
        have hrest : ¬ k ∈ rest.map Prod.fst := hnd'.1
        simp only [if_neg hrest, List.map_cons, List.mem_cons, true_or, if_pos,
          freqGetD, if_pos rfl]
        by_cases hgt : c > f k
        · simp [if_pos hgt, List.count_replicate]
        · simp [if_neg hgt, Nat.sub_eq_zero_of_le (Nat.le_of_not_lt hgt)]
      · have hcount : (if c > f k then List.replicate (c - f k) k else []).count v = 0 := by
          by_cases hgt : c > f k
          · simp [if_pos hgt, List.count_replicate, hv]
          · simp [if_neg hgt]
        rw [hcount]
        have hvk : ¬ v = k := fun h => hv h.symm
        by_cases hmem : v ∈ rest.map Prod.fst <;>
          simp [List.map_cons, hmem, freqGetD, hv, hvk]

lemma matching_sum (refTxs nodeTxs : List String) :
    ((buildTxFrequencyMap refTxs).map
        (fun p => min p.2 (freqGetD (buildTxFrequencyMap nodeTxs) p.1))).sum
      = ∑ x ∈ (refTxs ++ nodeTxs).toFinset,
          min (refTxs.count x) (nodeTxs.count x) := by
  obtain ⟨hrval, hrnd, hrmem⟩ := buildTxFrequencyMap_spec refTxs
  obtain ⟨hnval, _, _⟩ := buildTxFrequencyMap_spec nodeTxs
  have hmapeq : (buildTxFrequencyMap refTxs).map
      (fun p => min p.2 (freqGetD (buildTxFrequencyMap nodeTxs) p.1))
      = (buildTxFrequencyMap refTxs).map
          (fun p => min (refTxs.count p.1) (nodeTxs.count p.1)) := by
    apply List.map_congr_left
    intro p hp
    rw [hnval p.1, ← entry_val_of_mem _ p hrnd hp, hrval p.1]
  rw [hmapeq]
  have hmm : (buildTxFrequencyMap refTxs).map
      (fun p => min (refTxs.count p.1) (nodeTxs.count p.1))
      = ((buildTxFrequencyMap refTxs).map Prod.fst).map
          (fun x => min (refTxs.count x) (nodeTxs.count x)) := by
    rw [List.map_map]
    rfl
  rw [hmm, ← List.sum_toFinset _ hrnd]
  apply Finset.sum_subset
  · intro x hx
    rw [List.mem_toFinset] at hx ⊢
    exact List.mem_append.mpr (Or.inl ((hrmem x).mp hx))
  · intro x _ hx
    rw [List.mem_toFinset] at hx
    have : ¬ x ∈ refTxs := fun h => hx ((hrmem x).mpr h)
    simp [List.count_eq_zero_of_not_mem this]

/-! ## Divergence detector with hysteresis (`analyzeNodeHealth`,
stateful variant with `appHashDivergenceCandidate`) -/

def APP_HASH_DIVERGENCE_DELAY_MS : Int := 5000

/-- The in-flight divergence candidate held by the service. -/
structure DivergenceCandidate where
  height : Int
  firstDetectedAt : Int
  confirmed : Bool
deriving DecidableEq

/-- The `abciInfo.result?.response` fields read by the detector; `none` models
an absent or non-string field. -/
structure AbciInfoLike where
  lastBlockHeight : Option String
  lastBlockAppHash : Option String

/-- The `commit.result?.signed_header?.header` fields read by the detector. -/
structure CommitLike where
  height : Option String
  appHash : Option String
  lastResultsHash : Option String

/-- Model of `field ? Number.parseInt(field, 10) : Number.NaN`: an absent or empty
(falsy) string gives `NaN`, modelled as `none`. -/
def parseHeightField (field : Option String) : Option Int :=
  match field with
  | none => none
  | some s => if s.isEmpty then none else jsParseInt10 s

/-- Model of the read `typeof field === 'string' ? field.trim() : ''`. -/
def trimmedHashField (field : Option String) : String :=
  match field with
  | none => ""
  | some s => jsTrim s

/-- The `hasDivergence`/`divergenceHeight` computation of the stateful
`analyzeNodeHealth`: `some h` exactly when a divergence is flagged, with
`h` the commit height (both comparison branches assign `commitHeight`). -/
def computeDivergence (abci : AbciInfoLike) (commit : CommitLike) : Option Int :=
  let abciHeight := parseHeightField abci.lastBlockHeight
  let abciAppHash := trimmedHashField abci.lastBlockAppHash
  let commitHeight := parseHeightField commit.height
  let commitAppHash := trimmedHashField commit.appHash
  let commitLastResultsHash := trimmedHashField commit.lastResultsHash
  match abciHeight, commitHeight with
  | some ah, some ch =>
      if abciAppHash.length > 0 then
        if ch = ah ∧ commitAppHash.length > 0 then
          if commitAppHash ≠ abciAppHash then some ch else none
        else if ch = ah + 1 ∧ commitLastResultsHash.length > 0 then
          if commitLastResultsHash ≠ abciAppHash then some ch else none
        else none
      else none
  | _, _ => none

/-- The candidate transition of `analyzeNodeHealth` once
`hasDivergence`/`divergenceHeight` are known: returns the new value of
`this.appHashDivergenceCandidate` and `shouldReportDivergence`. -/
def updateDivergenceCandidate (divergence : Option Int) (now : Int)
    (candidate : Option DivergenceCandidate) :
    Option DivergenceCandidate × Bool :=
  match divergence with
  | some divergenceHeight =>
      match candidate with
      | some c =>
          if c.height = divergenceHeight then
            if c.confirmed ∨ now - c.firstDetectedAt ≥ APP_HASH_DIVERGENCE_DELAY_MS then
              (if c.confirmed then some c else some { c with confirmed := true }, true)
            else
              (some c, false)
          else
            (some ⟨divergenceHeight, now, false⟩, false)
      | none => (some ⟨divergenceHeight, now, false⟩, false)
  | none => (none, false)

/-- The effect of one `analyzeNodeHealth` call (part of the polling tick) on
`this.appHashDivergenceCandidate`, together with whether the app-hash
divergence error message was reported.  When `status` is absent the function
returns early; when either `abciInfo` or `commit` is absent the whole
divergence block is skipped; otherwise the candidate machine runs. -/
def analyzeCandidateStep (statusPresent : Bool)
    (abciInfo : Option AbciInfoLike) (commit : Option CommitLike)
    (now : Int) (candidate : Option DivergenceCandidate) :
    Option DivergenceCandidate × Bool :=
  if !statusPresent then (candidate, false)
  else
    match abciInfo, commit with
    | some abci, some cmt =>
        updateDivergenceCandidate (computeDivergence abci cmt) now candidate
    | _, _ => (candidate, false)

/-! ## Consensus health evaluator (`evaluateConsensusHealth`) and the
health verdict assembly (`analyzeNodeHealth`, stateless variant) -/

/-- Status sample fields read by the health logic
(`result.sync_info.latest_block_height/latest_block_time/catching_up`);
the block timestamp is carried as epoch milliseconds, abstracting the
`new Date(...)` parse. -/
structure StatusLike where
  latestBlockHeight : String
  latestBlockTimeMs : Int
  catchingUp : Bool

/-- Peer entry fields read via
`peer.peer_state?.round_state?.catchup_commit/proposal_pol`. -/
structure PeerLike where
  nodeAddress : String
  catchupCommit : Option String
  proposalPol : Option String

/-- Consensus-state sample fields (`result.round_state` plus `result.peers`). -/
structure ConsensusStateLike where
  height : String
  round : NumOrStr
  step : Option NumOrStr
  votes : Option (List VoteSetLike)
  heightVoteSet : Option (List VoteSetLike)
  peers : Option (List PeerLike)

/-- The `NodeHealth['consensus']` record. -/
structure ConsensusHealthS where
  healthy : Bool
  height : Option Int
  round : Option Int
  step : Option String
  prevoteRatio : Option ℚ
  precommitRatio : Option ℚ
  issues : List String

def replayErrorIndicators : List String :=
  [ "wrong block.header.lastresultshash",
    "wrong block.header.apphash",
    "wrong block.header.lastblockid",
    "wrong block.header.validatorshash",
    "wrong block.header.nextvalidatorshash",
    "error in validation",
    "failed to process committed block",
    "error on replay",
    "failed to replay",
    "cannot replay" ]

/-- Conversion `String(step)` for a number-or-string telemetry value. -/
def numOrStrToString : NumOrStr → String
  | .num n => jsIntToString n
  | .str s => s

/-- The `addReplayIssue` closure: push a deduplicated, truncated issue when
the message contains a replay-error indicator. -/
def addReplayIssue (issues : List String) (source : String)
    (message : Option String) : List String :=
  match message with
  | none => issues
  | some msg =>
      let trimmedMessage := jsTrim msg
      if trimmedMessage.isEmpty then issues
      else
        let normalized := jsToLower trimmedMessage
        match replayErrorIndicators.find? (fun pat => jsIncludes normalized pat) with
        | none => issues
        | some _ =>
            let summary :=
              if trimmedMessage.length > 160 then
                (⟨trimmedMessage.data.take 157⟩ : String) ++ "..."
              else trimmedMessage
            let pre :=
              if source.isEmpty then "Consensus replay error detected"
              else "Consensus replay error detected (" ++ source ++ ")"
            let issueMessage := pre ++ ": " ++ summary
            if issues.contains issueMessage then issues else issues ++ [issueMessage]

/-- Model of `parseInt(s, 10) || null`: `NaN` and `0` are both falsy. -/
def parseIntOrNull (s : String) : Option Int :=
  match jsParseInt10 s with
  | some n => if n = 0 then none else some n
  | none => none

/-- Round value of a vote set compared with the current round via `===`
(`NaN`/`undefined` never compare equal). -/
def voteSetRoundMatches (set : VoteSetLike) (round : Option Int) : Bool :=
  let parsed : Option Int :=
    match set.round with
    | some (.str s) => jsParseInt10 s
    | some (.num n) => some n
    | none => none
  match parsed with
  | some r => round == some r
  | none => false

/-- Translation of `evaluateConsensusHealth(status, consensusState)`, clause by
clause from the service. -/
def evaluateConsensusHealth (status : Option StatusLike)
    (consensusState : Option ConsensusStateLike) : ConsensusHealthS :=
  match consensusState with
  | none =>
      { healthy := false, height := none, round := none, step := none,
        prevoteRatio := none, precommitRatio := none,
        issues := ["Consensus state unavailable"] }
  | some rs =>
      let height := parseIntOrNull rs.height
      let round : Option Int :=
        match rs.round with
        | .num n => some n
        | .str s => jsParseInt10 s
      let rawStepValue := rs.step.map numOrStrToString
      let stepInfo := normalizeConsensusStep rs.step
      let stepLabel :=
        match stepInfo.label with
        | some l => some l
        | none => rawStepValue
      let issues1 :=
        match rawStepValue with
        | some rsv => if rsv.isEmpty then [] else addReplayIssue [] "round step" (some rsv)
        | none => []
      let issues2 :=
        if stepInfo.isCatchup then
          issues1 ++
            [if (match status with | some st => st.catchingUp | none => false) then
               "Node is stuck replaying blocks due to consensus catch-up issues"
             else
               "Consensus step indicates catch-up mode despite sync being reported complete"]
        else issues1
      let stepNumber := stepInfo.code
      let issues3 :=
        match status with
        | some st =>
            match jsParseInt10 st.latestBlockHeight, height with
            | some latest, some h =>
                if (latest - h).natAbs > 2 then
                  issues2 ++ ["Consensus height is lagging behind latest block height"]
                else issues2
            | _, _ => issues2
        | none => issues2
      let peers := rs.peers.getD []
      let issues4 := peers.foldl (fun acc peer =>
        addReplayIssue
          (addReplayIssue acc ("peer " ++ peer.nodeAddress) peer.catchupCommit)
          ("peer " ++ peer.nodeAddress) peer.proposalPol) issues3
      let voteSets :=
        match rs.votes with
        | some v => some v
        | none => rs.heightVoteSet
      let voteSet :=
        match voteSets with
        | none => none
        | some sets =>
            match sets.find? (fun set => voteSetRoundMatches set round) with
            | some s => some s
            | none => sets.head?
      let prevoteRatio := calculateVoteRatio voteSet true
      let precommitRatio := calculateVoteRatio voteSet false
      let participationThreshold : ℚ := 2 / 3
      let issues5 :=
        if (match stepNumber, prevoteRatio with
            | some sn, some r => decide (sn ≥ 3) && decide (r < participationThreshold)
            | _, _ => false) then
          issues4 ++ ["Prevote participation below two-thirds threshold"]
        else issues4
      let issues6 :=
        if (match stepNumber, precommitRatio with
            | some sn, some r => decide (sn ≥ 5) && decide (r < participationThreshold)
            | _, _ => false) then
          issues5 ++ ["Precommit participation below two-thirds threshold"]
        else issues5
      { healthy := issues6.isEmpty, height := height, round := round,
        step := stepLabel, prevoteRatio := prevoteRatio,
        precommitRatio := precommitRatio, issues := issues6 }

/-- Which comparison path flagged the divergence. -/
inductive DivergenceCause where
  | appHash
  | lastResults
deriving DecidableEq

/-- The `DivergenceAnalysis` record as produced by `computeDivergenceAnalysis`. -/
structure DivergenceAnalysisS where
  blockHeight : Int
  nodeAppHash : Option String
  referenceAppHash : Option String
  nodeBlockHash : Option String
  referenceBlockHash : Option String
  nodeTxCount : Nat
  referenceTxCount : Nat
  matchingTxCount : Nat
  missingTxs : List String
  unexpectedTxs : List String
  referenceNodeAddress : String
  referenceNodeRpcUrl : String
deriving DecidableEq

/-- The `DivergenceHealthDetails` record attached to the health verdict. -/
structure DivergenceHealthDetails where
  height : Option Int
  cause : Option DivergenceCause
  nodeAppHash : Option String
  abciAppHash : Option String
  nodeLastResultsHash : Option String
  analysis : Option DivergenceAnalysisS
  analysisError : Option String
deriving DecidableEq

/-- The `NodeHealth` record (the `lastUpdated` wall-clock stamp is omitted). -/
structure NodeHealthS where
  isOnline : Bool
  isSynced : Bool
  hasErrors : Bool
  errorMessages : List String
  consensus : ConsensusHealthS
  divergence : Option DivergenceHealthDetails

/-- Model of `Array.from(new Set(list))`: drop duplicates, keeping first occurrences. -/
def jsSetDedup (l : List String) : List String :=
  l.foldl (fun acc x => if x ∈ acc then acc else acc ++ [x]) []

/-- The stateless `analyzeNodeHealth(status, _netInfo, consensusState,
abciInfo, commit)` of the service variant that attaches
`DivergenceHealthDetails`, translated clause by clause.  `now` is the
`Date.now()` clock reading. -/
def analyzeNodeHealth (now : Int) (status : Option StatusLike)
    (consensusState : Option ConsensusStateLike)
    (abciInfo : Option AbciInfoLike) (commit : Option CommitLike) : NodeHealthS :=
  let emptyConsensus : ConsensusHealthS :=
    { healthy := false, height := none, round := none, step := none,
      prevoteRatio := none, precommitRatio := none, issues := [] }
  match status with
  | none =>
      { isOnline := false, isSynced := false, hasErrors := true,
        errorMessages := ["Unable to fetch node status"],
        consensus :=
          { emptyConsensus with
            issues := if consensusState.isNone then ["Consensus state unavailable"] else [] },
        divergence := none }
  | some st =>
      let timeDiff := now - st.latestBlockTimeMs
      let fiveMinutes : Int := 5 * 60 * 1000
      let staleBlock := timeDiff > fiveMinutes && !st.catchingUp
      let msgs1 : List String :=
        if staleBlock then
          -- `Math.round(timeDiff / 60000)` = floor(timeDiff/60000 + 1/2)
          ["Latest block is " ++ jsIntToString ((timeDiff + 30000).fdiv 60000) ++
            " minutes old"]
        else []
      let consensusHealth := evaluateConsensusHealth (some st) consensusState
      let msgs2 :=
        if consensusHealth.issues.length > 0 then msgs1 ++ consensusHealth.issues else msgs1
      let hasReplayIssue := consensusHealth.issues.any (fun issue =>
        jsIncludes (jsToLower issue) "replay error" || jsIncludes issue "catch-up")
      let isSynced := if hasReplayIssue then false else !st.catchingUp
      let divergenceInfo :
          Option ((Int × DivergenceCause) × (String × String × String)) :=
        match abciInfo, commit with
        | some abci, some cmt =>
            let abciHeight := parseHeightField abci.lastBlockHeight
            let abciAppHash := trimmedHashField abci.lastBlockAppHash
            let commitHeight := parseHeightField cmt.height
            let commitAppHash := trimmedHashField cmt.appHash
            let commitLastResultsHash := trimmedHashField cmt.lastResultsHash
            let flagged : Option (Int × DivergenceCause) :=
              match abciHeight, commitHeight with
              | some ah, some ch =>
                  if abciAppHash.length > 0 then
                    if ch = ah ∧ commitAppHash.length > 0 then
                      if commitAppHash ≠ abciAppHash then some (ch, .appHash) else none
                    else if ch = ah + 1 ∧ commitLastResultsHash.length > 0 then
                      -- this variant reports the ABCI height on the delayed path
                      if commitLastResultsHash ≠ abciAppHash then some (ah, .lastResults)
                      else none
                    else none
                  else none
              | _, _ => none
            flagged.map (fun hc => (hc, (commitAppHash, abciAppHash, commitLastResultsHash)))
        | _, _ => none
      let divergence : Option DivergenceHealthDetails :=
        match divergenceInfo with
        | some ((h, cause), (commitAppHash, abciAppHash, commitLastResultsHash)) =>
            some
              { height := some h, cause := some cause,
                nodeAppHash := if commitAppHash.length > 0 then some commitAppHash else none,
                abciAppHash := if abciAppHash.length > 0 then some abciAppHash else none,
                nodeLastResultsHash :=
                  if commitLastResultsHash.length > 0 then some commitLastResultsHash else none,
                analysis := none, analysisError := none }
        | none => none
      let msgs3 :=
        match divergenceInfo with
        | some _ => msgs2 ++ ["Possible app-hash divergence — see node logs."]
        | none => msgs2
      let hasErrors :=
        staleBlock || consensusHealth.issues.length > 0 || divergenceInfo.isSome
      { isOnline := true, isSynced := isSynced, hasErrors := hasErrors,
        errorMessages := jsSetDedup msgs3, consensus := consensusHealth,
        divergence := divergence }

/-! ## `computeDivergenceAnalysis` and the `getAllData` divergence merge -/

/-- Result of `fetchBlockSummary` for one node. -/
structure BlockSummaryS where
  height : Int
  appHash : Option String
  lastResultsHash : Option String
  blockHash : Option String
  txs : List String

/-- Translation of `computeDivergenceAnalysis(height)` given the outcomes of the two
`fetchBlockSummary` calls (`Promise.all`: any rejection rejects the whole
computation, the monitored node's first). -/
def computeDivergenceAnalysisModel (referenceNodeAddress referenceNodeRpcUrl : String)
    (nodeFetch referenceFetch : Except String BlockSummaryS) :
    Except String DivergenceAnalysisS :=
  match nodeFetch, referenceFetch with
  | .ok nodeSummary, .ok referenceSummary =>
      let diff := divergenceDiff referenceSummary.txs nodeSummary.txs
      .ok
        { blockHeight := nodeSummary.height,
          nodeAppHash := nodeSummary.appHash,
          referenceAppHash := referenceSummary.appHash,
          nodeBlockHash := nodeSummary.blockHash,
          referenceBlockHash := referenceSummary.blockHash,
          nodeTxCount := nodeSummary.txs.length,
          referenceTxCount := referenceSummary.txs.length,
          matchingTxCount := diff.2.2,
          missingTxs := diff.1,
          unexpectedTxs := diff.2.1,
          referenceNodeAddress := referenceNodeAddress,
          referenceNodeRpcUrl := referenceNodeRpcUrl }
  | .error e, _ => .error e
  | .ok _, .error e => .error e

/-- The `getAllData` post-processing of a confirmed divergence: merge the
analysis (or the failure message) into the already-built
`DivergenceHealthDetails`. -/
def applyDivergenceOutcome (details : DivergenceHealthDetails)
    (outcome : Except String DivergenceAnalysisS) : DivergenceHealthDetails :=
  match outcome with
  | .ok analysis =>
      { details with
        height := match details.height with | some x => some x | none => some analysis.blockHeight,
        nodeAppHash := match details.nodeAppHash with | some x => some x | none => analysis.nodeAppHash,
        analysis := some analysis,
        analysisError := none }
  | .error msg =>
      let heightStr := match details.height with | some x => jsIntToString x | none => "null"
      { details with
        analysis := none,
        analysisError :=
          some ("Failed to analyse divergence at height " ++ heightStr ++ ": " ++ msg) }

/-! ## Polling hook completion handling (`useCometBFT`) -/

/-- One `ConsensusParticipationSample` (timestamp omitted). -/
structure ConsensusSampleM where
  height : Option Int
  round : Option Int
  step : Option String
  prevoteRatio : Option ℚ
  precommitRatio : Option ℚ
deriving DecidableEq

/-- The slice of the hook's `DashboardData` state acted on by a `fetchData`
completion; the fetched payload bodies are opaque here, the history list is
modelled in full. -/
structure DashboardDataM where
  status : Option String
  consensusState : Option String
  error : Option String
  loading : Bool
  consensusHistory : List ConsensusSampleM

/-- The `setData` updater run when a `fetchData` (full poll) call resolves:
`{ ...newData, consensusHistory: history }`.  Every field other than the
history is taken from the resolved payload unconditionally — the hook keeps
no request token. -/
def applyFetchSuccess (previous newData : DashboardDataM)
    (sample : Option ConsensusSampleM) : DashboardDataM :=
  let history0 := previous.consensusHistory
  let history :=
    match sample with
    | some s =>
        let isDuplicate :=
          match history0.getLast? with
          | some lastEntry =>
              decide (lastEntry.height = s.height) &&
              decide (lastEntry.round = s.round) &&
              decide (lastEntry.prevoteRatio = s.prevoteRatio) &&
              decide (lastEntry.precommitRatio = s.precommitRatio)
          | none => false
        let h1 := if isDuplicate then history0 else history0 ++ [s]
        if h1.length > 50 then h1.drop (h1.length - 50) else h1
    | none => history0
  { newData with consensusHistory := history }

/-- Apply a sequence of `fetchData` completions in the order they resolve. -/
def runCompletions (init : DashboardDataM)
    (completions : List (DashboardDataM × Option ConsensusSampleM)) : DashboardDataM :=
  completions.foldl (fun st c => applyFetchSuccess st c.1 c.2) init

/-! ## Character and digit lemmas -/

lemma isDigitChar_digitChar (k : Nat) : isDigitChar (digitChar k) = true := by
  unfold digitChar
  split <;> decide

lemma mem_natToDigitsAux_digit (fuel n : Nat) (c : Char)
    (h : c ∈ natToDigitsAux fuel n) : isDigitChar c = true := by
  induction fuel generalizing n with
  | zero =>
      simp only [natToDigitsAux, List.mem_singleton] at h
      exact h ▸ isDigitChar_digitChar n
  | succ fuel ih =>
      simp only [natToDigitsAux] at h
      by_cases hn : n < 10
      · rw [if_pos hn] at h
        simp only [List.mem_singleton] at h
        exact h ▸ isDigitChar_digitChar n
      · rw [if_neg hn] at h
        rcases List.mem_append.mp h with h | h
        · exact ih _ h
        · simp only [List.mem_singleton] at h
          exact h ▸ isDigitChar_digitChar (n % 10)

lemma mem_natToDigits_digit (n : Nat) (c : Char)
    (h : c ∈ natToDigits n) : isDigitChar c = true :=
  mem_natToDigitsAux_digit _ _ _ h

lemma natToDigitsAux_ne_nil (fuel n : Nat) : natToDigitsAux fuel n ≠ [] := by
  cases fuel with
  | zero => simp [natToDigitsAux]
  | succ fuel =>
      simp only [natToDigitsAux]
      by_cases hn : n < 10 <;> simp [hn]

lemma natToDigits_ne_nil (n : Nat) : natToDigits n ≠ [] :=
  natToDigitsAux_ne_nil _ _

lemma digit_val_bounds (c : Char) (h : isDigitChar c = true) :
    48 ≤ c.toNat ∧ c.toNat ≤ 57 := by
  simp only [isDigitChar, Bool.and_eq_true, decide_eq_true_eq] at h
  obtain ⟨h1, h2⟩ := h
  constructor
  · exact h1
  · exact h2

lemma lowerChar_digit (c : Char) (h : isDigitChar c = true) : lowerChar c = c := by
  obtain ⟨h1, h2⟩ := digit_val_bounds c h
  unfold lowerChar
  rw [if_neg]
  intro hc
  have : 65 ≤ c.toNat := hc.1
  omega

lemma jsIsSpace_digit (c : Char) (h : isDigitChar c = true) : jsIsSpace c = false := by
  obtain ⟨h1, h2⟩ := digit_val_bounds c h
  simp only [jsIsSpace, Bool.or_eq_false_iff, decide_eq_false_iff_not]
  refine ⟨⟨⟨⟨⟨⟨?_, ?_⟩, ?_⟩, ?_⟩, ?_⟩, ?_⟩, ?_⟩ <;>
    (intro hc; rw [hc] at h1 h2;
     first
     | exact absurd h1 (by decide)
     | exact absurd h2 (by decide))

/-- Every element of a successfully matched substring occurs in the
haystack. -/
lemma mem_of_startsWith (l pat : List Char) (h : startsWith l pat = true) :
    ∀ c ∈ pat, c ∈ l := by
  induction pat generalizing l with
  | nil => intro c hc; cases hc
  | cons p ps ih =>
      cases l with
      | nil => simp [startsWith] at h
      | cons a as =>
          simp only [startsWith, Bool.and_eq_true, decide_eq_true_eq] at h
          intro c hc
          rcases List.mem_cons.mp hc with hc | hc


          · exact List.mem_cons.mpr (Or.inl (hc ▸ h.1.symm))
          · exact List.mem_cons.mpr (Or.inr (ih as h.2 c hc))

lemma mem_of_containsSub (hay pat : List Char) (h : containsSub hay pat = true) :
    ∀ c ∈ pat, c ∈ hay := by
  induction hay with
  | nil =>
      simp only [containsSub, List.isEmpty_iff] at h
      subst h
      intro c hc
      cases hc
  | cons a as ih =>
      simp only [containsSub, Bool.or_eq_true] at h
      rcases h with h | h
      · exact mem_of_startsWith _ _ h
      · intro c hc
        exact List.mem_cons.mpr (Or.inr (ih h c hc))

lemma digitsToNat_append_singleton (l : List Char) (c : Char) :
    digitsToNat (l ++ [c]) = digitsToNat l * 10 + (c.toNat - 48) := by
  simp [digitsToNat, List.foldl_append]

lemma digitChar_val (k : Nat) (h : k < 10) : (digitChar k).toNat - 48 = k := by
  interval_cases k <;> decide

lemma digitsToNat_natToDigitsAux (fuel n : Nat) (h : n ≤ fuel) :
    digitsToNat (natToDigitsAux fuel n) = n := by
  induction fuel generalizing n with
  | zero =>
      have : n = 0 := Nat.le_zero.mp h
      subst this
      decide
  | succ fuel ih =>
      simp only [natToDigitsAux]
      by_cases hn : n < 10
      · rw [if_pos hn]
        simpa [digitsToNat] using digitChar_val n hn
      · rw [if_neg hn]
        have hdiv : n / 10 ≤ fuel := by
          have := Nat.div_lt_self (by omega : 0 < n) (by norm_num : 1 < 10)
          omega
        rw [digitsToNat_append_singleton, ih _ hdiv,
          digitChar_val (n % 10) (Nat.mod_lt _ (by norm_num))]
        omega

lemma digitsToNat_natToDigits (n : Nat) : digitsToNat (natToDigits n) = n :=
  digitsToNat_natToDigitsAux (n + 1) n (Nat.le_succ n)

lemma dropWhile_eq_self_of_head (p : Char → Bool) (l : List Char)
    (h : ∀ c, l.head? = some c → p c = false) : l.dropWhile p = l := by
  cases l with
  | nil => rfl
  | cons a as => simp [List.dropWhile_cons, h a rfl]

lemma takeWhile_append_stop (p : Char → Bool) (l r : List Char)
    (hl : ∀ c ∈ l, p c = true)
    (hr : ∀ c, r.head? = some c → p c = false) :
    (l ++ r).takeWhile p = l ∧ (l ++ r).dropWhile p = r := by
  induction l with
  | nil =>
      cases r with
      | nil => simp
      | cons a as => simp [List.takeWhile_cons, List.dropWhile_cons, hr a rfl]
  | cons a as ih =>
      have ha : p a = true := hl a (List.mem_cons_self a as)
      have ih2 := ih (fun c hc => hl c (List.mem_cons_of_mem a hc))
      simp [List.takeWhile_cons, List.dropWhile_cons, ha, ih2.1, ih2.2]

lemma jsTrim_mk_eq_self (l : List Char)
    (h1 : ∀ c, l.head? = some c → jsIsSpace c = false)
    (h2 : ∀ c, l.getLast? = some c → jsIsSpace c = false) :
    jsTrim ⟨l⟩ = ⟨l⟩ := by
  unfold jsTrim
  rw [show (String.mk l).data = l from rfl]
  rw [dropWhile_eq_self_of_head _ _ h1]
  rw [dropWhile_eq_self_of_head _ _ (by
    intro c hc
    exact h2 c (by rwa [List.head?_reverse] at hc))]
  rw [List.reverse_reverse]

/-! ## Claims about the divergence detector -/

/-- C1: when a poll observes an app-hash divergence at the same height as
the existing unconfirmed candidate, the candidate is confirmed (and the
divergence reported) exactly when `now - firstDetectedAt ≥ 5000` ms, the
confirmation keeping `firstDetectedAt` intact; once confirmed, every
subsequent poll observing divergence at that height re-reports the
confirmed candidate unchanged. -/
theorem c1_divergence_hysteresis (abci : AbciInfoLike) (cmt : CommitLike)
    (now t0 h : Int) (hdiv : computeDivergence abci cmt = some h) :
    (analyzeCandidateStep true (some abci) (some cmt) now (some ⟨h, t0, false⟩) =
      if now - t0 ≥ APP_HASH_DIVERGENCE_DELAY_MS then (some ⟨h, t0, true⟩, true)
      else (some ⟨h, t0, false⟩, false)) ∧
    analyzeCandidateStep true (some abci) (some cmt) now (some ⟨h, t0, true⟩) =
      (some ⟨h, t0, true⟩, true) := by
  constructor
  · by_cases ht : now - t0 ≥ APP_HASH_DIVERGENCE_DELAY_MS <;>
      simp [analyzeCandidateStep, updateDivergenceCandidate, hdiv, ht]
  · simp [analyzeCandidateStep, updateDivergenceCandidate, hdiv]

/-- C1 witness: a divergence at height 100 first seen at t=0 is still
unconfirmed at t=3000, confirmed at t=5200, and re-reported unchanged at
t=6000. -/
theorem c1_divergence_hysteresis_witness :
    computeDivergence ⟨some "100", some "AAA"⟩ ⟨some "100", some "BBB", some ""⟩ =
      some 100 ∧
    analyzeCandidateStep true (some ⟨some "100", some "AAA"⟩)
        (some ⟨some "100", some "BBB", some ""⟩) 3000 (some ⟨100, 0, false⟩) =
      (some ⟨100, 0, false⟩, false) ∧
    analyzeCandidateStep true (some ⟨some "100", some "AAA"⟩)
        (some ⟨some "100", some "BBB", some ""⟩) 5200 (some ⟨100, 0, false⟩) =
      (some ⟨100, 0, true⟩, true) ∧
    analyzeCandidateStep true (some ⟨some "100", some "AAA"⟩)
        (some ⟨some "100", some "BBB", some ""⟩) 6000 (some ⟨100, 0, true⟩) =
      (some ⟨100, 0, true⟩, true) := by
  have hdiv : computeDivergence ⟨some "100", some "AAA"⟩
      ⟨some "100", some "BBB", some ""⟩ = some 100 := by decide
  refine ⟨hdiv, ?_, ?_, ?_⟩
  · rw [(c1_divergence_hysteresis _ _ 3000 0 100 hdiv).1]
    norm_num [APP_HASH_DIVERGENCE_DELAY_MS]
  · rw [(c1_divergence_hysteresis _ _ 5200 0 100 hdiv).1]
    norm_num [APP_HASH_DIVERGENCE_DELAY_MS]
  · exact (c1_divergence_hysteresis _ _ 6000 0 100 hdiv).2

/-- C4: a poll that computes no divergence clears any existing candidate
(confirmed or not) back to `NONE`, and a subsequent divergence at a
different height starts a brand-new unconfirmed candidate whose
`firstDetectedAt` is the current time. -/
theorem c4_divergence_reset (abci abci2 : AbciInfoLike) (cmt cmt2 : CommitLike)
    (now now2 h2 : Int) (cand : Option DivergenceCandidate)
    (c : DivergenceCandidate)
    (hnone : computeDivergence abci cmt = none)
    (hdiv : computeDivergence abci2 cmt2 = some h2)
    (hne : c.height ≠ h2) :
    analyzeCandidateStep true (some abci) (some cmt) now cand = (none, false) ∧
    analyzeCandidateStep true (some abci2) (some cmt2) now2 (some c) =
      (some ⟨h2, now2, false⟩, false) := by
  constructor
  · simp [analyzeCandidateStep, updateDivergenceCandidate, hnone]
  · simp [analyzeCandidateStep, updateDivergenceCandidate, hdiv, hne]

/-- C4 witness: a confirmed candidate for height 100 is cleared by a
divergence-free poll, and a divergence at height 101 then starts a fresh
unconfirmed candidate stamped with the new time. -/
theorem c4_divergence_reset_witness :
    computeDivergence ⟨some "100", some "AAA"⟩ ⟨some "100", some "AAA", some ""⟩ =
      none ∧
    computeDivergence ⟨some "101", some "AAA"⟩ ⟨some "101", some "BBB", some ""⟩ =
      some 101 ∧
    analyzeCandidateStep true (some ⟨some "100", some "AAA"⟩)
        (some ⟨some "100", some "AAA", some ""⟩) 7000 (some ⟨100, 0, true⟩) =
      (none, false) ∧
    analyzeCandidateStep true (some ⟨some "101", some "AAA"⟩)
        (some ⟨some "101", some "BBB", some ""⟩) 8000 (some ⟨100, 0, true⟩) =
      (some ⟨101, 8000, false⟩, false) := by
  have hnone : computeDivergence ⟨some "100", some "AAA"⟩
      ⟨some "100", some "AAA", some ""⟩ = none := by decide
  have hdiv : computeDivergence ⟨some "101", some "AAA"⟩
      ⟨some "101", some "BBB", some ""⟩ = some 101 := by decide
  have := c4_divergence_reset _ _ _ _ 7000 8000 101 (some ⟨100, 0, true⟩)
    ⟨100, 0, true⟩ hnone hdiv (by decide)
  exact ⟨hnone, hdiv, this.1, this.2⟩

/-- C10: when the ABCI-info or commit sample is absent, the poll leaves the
divergence candidate untouched; the candidate is cleared exactly by a poll
where the status and both samples are present and the comparison computes
no divergence (which includes unparsable heights and empty hashes). -/
theorem c10_candidate_frame (statusPresent : Bool)
    (abciInfo : Option AbciInfoLike) (commit : Option CommitLike)
    (now : Int) (cand : Option DivergenceCandidate)
    (abci : AbciInfoLike) (cmt : CommitLike) :
    (abciInfo = none ∨ commit = none →
      analyzeCandidateStep statusPresent abciInfo commit now cand = (cand, false)) ∧
    ((analyzeCandidateStep statusPresent abciInfo commit now cand).1 = none →
      cand = none ∨
        (statusPresent = true ∧ ∃ a k, abciInfo = some a ∧ commit = some k ∧
          computeDivergence a k = none)) ∧
    (computeDivergence abci cmt = none →
      (analyzeCandidateStep true (some abci) (some cmt) now cand).1 = none) := by
  refine ⟨?_, ?_, ?_⟩
  · rintro (h | h) <;> subst h <;>
      cases statusPresent <;>
      first
      | simp [analyzeCandidateStep]
      | (cases abciInfo <;> simp [analyzeCandidateStep])
  · intro hres
    by_cases hs : statusPresent = true
    · subst hs
      cases habci : abciInfo with
      | none =>
          simp [analyzeCandidateStep, habci] at hres
          exact Or.inl hres
      | some a =>
          cases hcmt : commit with
          | none =>
              simp [analyzeCandidateStep, habci, hcmt] at hres
              exact Or.inl hres
          | some k =>
              cases hdiv : computeDivergence a k with
              | none => exact Or.inr ⟨rfl, a, k, rfl, rfl, hdiv⟩
              | some hh =>
                  exfalso
                  simp [analyzeCandidateStep, habci, hcmt,
                    updateDivergenceCandidate, hdiv] at hres
                  rcases cand with _ | c
                  · simp at hres
                  · by_cases hch : c.height = hh <;>
                      by_cases hcc : c.confirmed = true <;>
                      by_cases ht : now - c.firstDetectedAt ≥
                        APP_HASH_DIVERGENCE_DELAY_MS <;>
                      simp [hch, hcc, ht] at hres
    · have : statusPresent = false := by
        cases statusPresent
        · rfl
        · exact absurd rfl hs
      subst this
      simp [analyzeCandidateStep] at hres
      exact Or.inl hres
  · intro hdiv
    simp [analyzeCandidateStep, updateDivergenceCandidate, hdiv]

/-- C10 witness: an absent commit sample leaves the candidate unchanged,
and a poll whose ABCI height is unparsable computes no divergence and
clears the candidate. -/
theorem c10_candidate_frame_witness :
    analyzeCandidateStep true (some ⟨some "100", some "AAA"⟩) none 9000
        (some ⟨100, 0, false⟩) = (some ⟨100, 0, false⟩, false) ∧
    computeDivergence ⟨some "abc", some "AAA"⟩ ⟨some "100", some "BBB", some ""⟩ =
      none ∧
    (analyzeCandidateStep true (some ⟨some "abc", some "AAA"⟩)
        (some ⟨some "100", some "BBB", some ""⟩) 9000 (some ⟨100, 0, false⟩)).1 =
      none := by
  have h := c10_candidate_frame true (some ⟨some "100", some "AAA"⟩) none 9000
    (some ⟨100, 0, false⟩) ⟨some "abc", some "AAA"⟩ ⟨some "100", some "BBB", some ""⟩
  have hdiv : computeDivergence ⟨some "abc", some "AAA"⟩
      ⟨some "100", some "BBB", some ""⟩ = none := by decide
  exact ⟨h.1 (Or.inr rfl), hdiv, h.2.2 hdiv⟩

/-! ## Claim about the multiset transaction diff -/

/-- C2: `missingTxs` carries each value `(referenceCount − monitoredCount)`
times (truncated subtraction: absent when the monitored count is at least
the reference count), `unexpectedTxs` symmetrically carries the monitored
excess, `matchingTxCount` is the sum of `min` of the two multiplicities
over all values, and the reference `[A,A,B]` versus monitored `[A,C]`
instance yields `missingTxs = [A,B]`, `unexpectedTxs = [C]`,
`matchingTxCount = 1`. -/
theorem c2_multiset_diff (referenceTxs nodeTxs : List String) (v : String) :
    ((divergenceDiff referenceTxs nodeTxs).1.count v
        = referenceTxs.count v - nodeTxs.count v) ∧
    ((divergenceDiff referenceTxs nodeTxs).2.1.count v
        = nodeTxs.count v - referenceTxs.count v) ∧
    ((divergenceDiff referenceTxs nodeTxs).2.2
        = ∑ x ∈ (referenceTxs ++ nodeTxs).toFinset,
            min (referenceTxs.count x) (nodeTxs.count x)) ∧
    divergenceDiff ["A", "A", "B"] ["A", "C"] = (["A", "B"], ["C"], 1) := by
  obtain ⟨hrval, hrnd, hrmem⟩ := buildTxFrequencyMap_spec referenceTxs
  obtain ⟨hnval, hnnd, hnmem⟩ := buildTxFrequencyMap_spec nodeTxs
  refine ⟨?_, ?_, ?_, by decide⟩
  · show ((buildTxFrequencyMap referenceTxs).flatMap (fun p =>
        if p.2 > freqGetD (buildTxFrequencyMap nodeTxs) p.1 then
          List.replicate (p.2 - freqGetD (buildTxFrequencyMap nodeTxs) p.1) p.1
        else [])).count v = _
    rw [count_excess_flatMap _ _ _ hrnd]
    by_cases hv : v ∈ (buildTxFrequencyMap referenceTxs).map Prod.fst
    · rw [if_pos hv, hrval, hnval]
    · rw [if_neg hv]
      have : ¬ v ∈ referenceTxs := fun h => hv ((hrmem v).mpr h)
      rw [List.count_eq_zero_of_not_mem this, Nat.zero_sub]
  · show ((buildTxFrequencyMap nodeTxs).flatMap (fun p =>
        if p.2 > freqGetD (buildTxFrequencyMap referenceTxs) p.1 then
          List.replicate (p.2 - freqGetD (buildTxFrequencyMap referenceTxs) p.1) p.1
        else [])).count v = _
    rw [count_excess_flatMap _ _ _ hnnd]
    by_cases hv : v ∈ (buildTxFrequencyMap nodeTxs).map Prod.fst
    · rw [if_pos hv, hrval, hnval]
    · rw [if_neg hv]
      have : ¬ v ∈ nodeTxs := fun h => hv ((hnmem v).mpr h)
      rw [List.count_eq_zero_of_not_mem this, Nat.zero_sub]
  · exact matching_sum referenceTxs nodeTxs

/-! ## Claims about vote parsing -/

lemma lastBraceSplit_canonical (flags : List Char)
    (hflags : ∀ c ∈ flags, jsIsLineTerm c = false) :
    lastBraceSplit (flags ++ ['}']) = some flags := by
  have hall : ∀ c ∈ flags ++ ['}'], (!jsIsLineTerm c) = true := by
    intro c hc
    rcases List.mem_append.mp hc with hc | hc
    · simp [hflags c hc]
    · simp only [List.mem_singleton] at hc
      subst hc
      decide
  have htw : (flags ++ ['}']).takeWhile (fun c => !jsIsLineTerm c) = flags ++ ['}'] := by
    have h := takeWhile_append_stop (fun c => !jsIsLineTerm c) (flags ++ ['}']) []
      hall (by intro c hc; simp at hc)
    simpa using h.1
  unfold lastBraceSplit
  simp only [htw, List.reverse_append, List.reverse_cons, List.reverse_nil,
    List.nil_append, List.singleton_append]
  rw [List.dropWhile_cons]
  simp [List.reverse_reverse]

lemma tryBAMatch_canonical (total : Nat) (flags : List Char)
    (hflags : ∀ c ∈ flags, jsIsLineTerm c = false) :
    tryBAMatch ('B' :: 'A' :: '{' :: (natToDigits total ++ ':' :: (flags ++ ['}'])))
      = some (natToDigits total, flags) := by
  have hdig : ∀ c ∈ natToDigits total, isDigitChar c = true :=
    fun c hc => mem_natToDigits_digit total c hc
  have hstop : ∀ c, (':' :: (flags ++ ['}'])).head? = some c → isDigitChar c = false := by
    intro c hc
    injection hc with h
    subst h
    decide
  have hsplit := takeWhile_append_stop isDigitChar (natToDigits total)
    (':' :: (flags ++ ['}'])) hdig hstop
  show (if 'B' = 'B' ∧ 'A' = 'A' ∧ '{' = '{' then
      let digits := (natToDigits total ++ ':' :: (flags ++ ['}'])).takeWhile isDigitChar
      if digits.isEmpty then none
      else
        match (natToDigits total ++ ':' :: (flags ++ ['}'])).dropWhile isDigitChar with
        | c4 :: tail2 =>
            if c4 = ':' then (lastBraceSplit tail2).map (fun flags => (digits, flags))
            else none
        | [] => none
    else none) = some (natToDigits total, flags)
  rw [if_pos ⟨rfl, rfl, rfl⟩]
  simp only [hsplit.1, hsplit.2]
  rw [if_neg (by simp [natToDigits_ne_nil total])]
  simp [lastBraceSplit_canonical flags hflags]

lemma findBAMatch_canonical (total : Nat) (flags : List Char)
    (hflags : ∀ c ∈ flags, jsIsLineTerm c = false) :
    findBAMatch ('B' :: 'A' :: '{' :: (natToDigits total ++ ':' :: (flags ++ ['}'])))
      = some (natToDigits total, flags) := by
  unfold findBAMatch
  rw [tryBAMatch_canonical total flags hflags]

/-- C3 counterexample: the affirmative flag set of the code is `[xX1]`, not
`\x7bx, X, t, T, 1, +\x7d`, and an empty flags group yields `null` even with
a positive total: `BA\x7b4:tT++\x7d` evaluates to ratio 0 where the claim
predicts 4/4, and `BA\x7b4:\x7d` evaluates to `null` where the claim
predicts a ratio. -/
theorem c3_counterexample :
    parseVoteRatioFromBitArray (some "BA\x7b4:tT++\x7d") = some 0 ∧
    (4 : ℚ) / 4 ≠ 0 ∧
    parseVoteRatioFromBitArray (some "BA\x7b4:\x7d") = none := by
  refine ⟨?_, by norm_num, by decide⟩
  rw [parseBitArrayEval "BA\x7b4:tT++\x7d" ("4".data) ("tT++".data) 0 4
    (by decide) (by decide) (by decide) (by simp) (by decide) (by decide)]
  norm_num

/-- C3 (amended): for a string of the shape `BA\x7btotal:flags\x7d` whose
flags contain no line terminator, the result is `null` when `total = 0` or
the flags group is empty, and otherwise the ratio of flags in the
affirmative set `\x7bx, X, 1\x7d` over `total`; a string without the closing
brace, and an absent argument, give `null`. -/
theorem c3_bit_array_amended (total : Nat) (flags : List Char)
    (hflags : ∀ c ∈ flags, jsIsLineTerm c = false) :
    (parseVoteRatioFromBitArray
        (some ⟨'B' :: 'A' :: '{' :: (natToDigits total ++ ':' :: (flags ++ ['}']))⟩)
      = if total = 0 ∨ flags = [] then none
        else some (((flags.filter isAffirmativeFlag).length : ℚ) / (total : ℚ))) ∧
    parseVoteRatioFromBitArray (some "BA\x7b4:xX__") = none ∧
    parseVoteRatioFromBitArray none = none := by
  refine ⟨?_, by decide, by decide⟩
  have hne : (String.mk ('B' :: 'A' :: '{' ::
      (natToDigits total ++ ':' :: (flags ++ ['}'])))).isEmpty = false := by
    rw [Bool.eq_false_iff]
    intro h
    have h2 := (String.isEmpty_iff _).mp h
    have := congrArg String.data h2
    simp at this
  simp only [parseVoteRatioFromBitArray, hne, Bool.false_eq_true, if_false]
  rw [findBAMatch_canonical total flags hflags]
  simp only [digitsToNat_natToDigits]
  by_cases h0 : total = 0
  · simp [h0]
  · by_cases hfl : flags = []
    · simp [h0, hfl]
    · have : flags.isEmpty = false := by
        cases flags
        · exact absurd rfl hfl
        · rfl
      simp [h0, hfl, this]

/-- C3 witness: `BA\x7b4:xX__\x7d` parses to ratio 1/2. -/
theorem c3_bit_array_amended_witness :
    (∀ c ∈ ("xX__".data), jsIsLineTerm c = false) ∧
    parseVoteRatioFromBitArray (some "BA\x7b4:xX__\x7d") = some ((1 : ℚ) / 2) := by
  refine ⟨by decide, ?_⟩
  have h := (c3_bit_array_amended 4 ("xX__".data) (by decide)).1
  have hstr : (⟨'B' :: 'A' :: '{' ::
      (natToDigits 4 ++ ':' :: ("xX__".data ++ ['}']))⟩ : String) = "BA\x7b4:xX__\x7d" := by
    decide
  rw [hstr] at h
  rw [h, if_neg (by decide),
    show (List.filter isAffirmativeFlag ("xX__".data)).length = 2 from by decide]
  norm_num

/-- C6: the vote-list ratio is `null` exactly for a missing, empty, or
all-excluded list; otherwise whitespace-only entries are excluded from the
denominator, the remaining entries are affirmative unless they carry a nil
marker, and the ratio is affirmative over meaningful — in particular
`["<nil>", "", "sig-A", "sig-B"]` gives 2/3. -/
theorem c6_vote_list (votes : Option (List String)) (vs : List String)
    (hmeaningful : vs.filter isMeaningfulVote ≠ []) :
    (parseVoteRatioFromVotes votes = none ↔
      votes = none ∨ votes = some [] ∨
        (∃ l, votes = some l ∧ l ≠ [] ∧ l.filter isMeaningfulVote = [])) ∧
    parseVoteRatioFromVotes (some vs) =
      some ((((vs.filter isMeaningfulVote).filter isAffirmativeVote).length : ℚ) /
        ((vs.filter isMeaningfulVote).length : ℚ)) ∧
    parseVoteRatioFromVotes (some ["<nil>", "", "sig-A", "sig-B"]) =
      some ((2 : ℚ) / 3) := by
  refine ⟨?_, ?_, ?_⟩
  · cases votes with
    | none => simp [parseVoteRatioFromVotes]
    | some l =>
        by_cases hl : l = []
        · subst hl
          simp [parseVoteRatioFromVotes]
        · by_cases hf : l.filter isMeaningfulVote = []
          · simp only [parseVoteRatioFromVotes,
              if_neg (fun h => hl (List.length_eq_zero.mp h)), hf]
            simp
            refine Or.inr ⟨hl, fun a ha => ?_⟩
            have := List.filter_eq_nil.mp hf a ha
            simpa using this
          · simp only [parseVoteRatioFromVotes,
              if_neg (fun h => hl (List.length_eq_zero.mp h)),
              if_neg (fun h => hf (List.length_eq_zero.mp h))]
            simp
            refine ⟨hl, fun _ => ?_⟩
            by_contra h
            apply hf
            apply List.filter_eq_nil.mpr
            intro a ha
            intro hp
            exact h ⟨a, ha, hp⟩
  · have hvs : vs ≠ [] := by
      intro h
      subst h
      exact hmeaningful rfl
    simp only [parseVoteRatioFromVotes,
      if_neg (fun h => hvs (List.length_eq_zero.mp h)),
      if_neg (fun h => hmeaningful (List.length_eq_zero.mp h))]
  · rw [parseVotesEval ["<nil>", "", "sig-A", "sig-B"] 2 3
      (by simp) (by decide) (by simp) (by decide)]
    norm_num

/-- C6 witness: the theorem applied to the spec's example list. -/
theorem c6_vote_list_witness :
    (["<nil>", "", "sig-A", "sig-B"].filter isMeaningfulVote ≠ []) ∧
    parseVoteRatioFromVotes (some ["<nil>", "", "sig-A", "sig-B"]) =
      some ((2 : ℚ) / 3) := by
  refine ⟨by decide, ?_⟩
  exact (c6_vote_list (some ["<nil>", "", "sig-A", "sig-B"])
    ["<nil>", "", "sig-A", "sig-B"] (by decide)).2.2

/-! ## Claims about the step classifier -/

lemma string_data_append (a b : String) : (a ++ b).data = a.data ++ b.data := by
  cases a
  cases b
  rfl

lemma jsIntToString_has_digit (c : Int) :
    ∃ ch ∈ (jsIntToString c).data, isDigitChar ch = true := by
  cases c with
  | ofNat n =>
      obtain ⟨ch, hch⟩ := List.exists_mem_of_ne_nil _ (natToDigits_ne_nil n)
      exact ⟨ch, hch, mem_natToDigits_digit n ch hch⟩
  | negSucc n =>
      obtain ⟨ch, hch⟩ := List.exists_mem_of_ne_nil _ (natToDigits_ne_nil (n + 1))
      exact ⟨ch, List.mem_cons_of_mem _ hch, mem_natToDigits_digit (n + 1) ch hch⟩

lemma mem_jsIntToString (c : Int) (ch : Char) (h : ch ∈ (jsIntToString c).data) :
    ch = '-' ∨ isDigitChar ch = true := by
  cases c with
  | ofNat n => exact Or.inr (mem_natToDigits_digit n ch h)
  | negSucc n =>
      rcases List.mem_cons.mp h with h | h
      · exact Or.inl h
      · exact Or.inr (mem_natToDigits_digit (n + 1) ch h)

lemma jsIntToString_ne_nil (c : Int) : (jsIntToString c).data ≠ [] := by
  cases c with
  | ofNat n => exact natToDigits_ne_nil n
  | negSucc n => simp [jsIntToString]

lemma getLast_jsIntToString_digit (c : Int) (ch : Char)
    (h : (jsIntToString c).data.getLast? = some ch) : isDigitChar ch = true := by
  cases c with
  | ofNat n =>
      have hmem : ch ∈ natToDigits n :=
        List.mem_of_mem_getLast? (Option.mem_def.mpr h)
      exact mem_natToDigits_digit n ch hmem
  | negSucc n =>
      rcases hl : natToDigits (n + 1) with _ | ⟨d, ds⟩
      · exact absurd hl (natToDigits_ne_nil (n + 1))
      · rw [show (jsIntToString (Int.negSucc n)).data = '-' :: natToDigits (n + 1)
          from rfl, hl, List.getLast?_cons_cons] at h
        have hmem : ch ∈ d :: ds :=
          List.mem_of_mem_getLast? (Option.mem_def.mpr h)
        exact mem_natToDigits_digit (n + 1) ch (hl ▸ hmem)

/-- The label-equality scan of the canonical table can never match a label
containing a decimal digit: no canonical label has one. -/
lemma noCanonicalMatch (nl : String)
    (hd : ∃ ch ∈ nl.data, isDigitChar ch = true) :
    CONSENSUS_STEP_METADATA.find?
      (fun p => jsToLower nl == jsToLower p.2.label) = none := by
  rw [List.find?_eq_none]
  intro p hp hpred
  have hbeq : jsToLower nl = jsToLower p.2.label := by simpa using hpred
  obtain ⟨ch, hch, hdig⟩ := hd
  have hmem : ch ∈ (jsToLower nl).data := by
    have h2 : lowerChar ch ∈ nl.data.map lowerChar := List.mem_map_of_mem _ hch
    rw [lowerChar_digit ch hdig] at h2
    exact h2
  rw [hbeq] at hmem
  have hall : ∀ q ∈ CONSENSUS_STEP_METADATA,
      ∀ x ∈ (jsToLower q.2.label).data, isDigitChar x = false := by decide
  have hfalse := hall p hp ch hmem
  rw [hdig] at hfalse
  simp at hfalse

lemma stepMetaLookup_eq_none (c : Int)
    (hc : c ∉ CONSENSUS_STEP_METADATA.map Prod.fst) : stepMetaLookup c = none := by
  unfold stepMetaLookup
  rw [List.find?_eq_none.mpr]
  · rfl
  · intro p hp hbeq
    apply hc
    have : p.1 = c := by simpa using hbeq
    exact this ▸ List.mem_map.mpr ⟨p, hp, rfl⟩

lemma no_a_in_lower_step_label (c : Int) :
    'a' ∉ (jsToLower ("Step " ++ jsIntToString c)).data := by
  intro hmem
  have hdata : (jsToLower ("Step " ++ jsIntToString c)).data
      = ['s', 't', 'e', 'p', ' '] ++ (jsIntToString c).data.map lowerChar := by
    show (("Step " ++ jsIntToString c).data.map lowerChar) = _
    rw [string_data_append, List.map_append]
    rfl
  rw [hdata] at hmem
  rcases List.mem_append.mp hmem with h | h
  · simp at h
  · obtain ⟨x, hx, hlx⟩ := List.mem_map.mp h
    rcases mem_jsIntToString c x hx with h2 | h2
    · subst h2
      simp [lowerChar] at hlx
    · rw [lowerChar_digit x h2] at hlx
      subst hlx
      simp [isDigitChar] at h2

lemma step_label_indicators_none (c : Int) :
    CATCHUP_INDICATORS.any
      (fun ind => jsIncludes (jsToLower ("Step " ++ jsIntToString c)) ind) = false := by
  rw [List.any_eq_false]
  intro ind hind
  intro hinc
  have hmem := mem_of_containsSub _ _ hinc 'a' (by
    have : ∀ i ∈ CATCHUP_INDICATORS, 'a' ∈ i.data := by decide
    exact this ind hind)
  exact no_a_in_lower_step_label c hmem

lemma trim_step_label (c : Int) :
    jsTrim ("Step " ++ jsIntToString c) = "Step " ++ jsIntToString c := by
  apply jsTrim_mk_eq_self
  · intro ch hch
    simp only [List.cons_append, List.head?_cons, Option.some.injEq] at hch
    subst hch
    decide
  · intro ch hch
    have hch2 : (("Step ".data) ++ (jsIntToString c).data).getLast? = some ch := hch
    rw [List.getLast?_append_of_ne_nil _ (jsIntToString_ne_nil c)] at hch2
    exact jsIsSpace_digit _ (getLast_jsIntToString_digit c ch hch2)

lemma trim_catchup_label (c : Int) :
    jsTrim ("Catch-up (step " ++ jsIntToString c ++ ")")
      = "Catch-up (step " ++ jsIntToString c ++ ")" := by
  apply jsTrim_mk_eq_self
  · intro ch hch
    simp only [List.cons_append, List.head?_cons, Option.some.injEq] at hch
    subst hch
    decide
  · intro ch hch
    have hch2 : (("Catch-up (step " ++ jsIntToString c).data ++ [')']).getLast?
        = some ch := hch
    rw [List.getLast?_concat] at hch2
    injection hch2 with hch2
    subst hch2
    decide

lemma label_ne_empty (s : String) (h : s.data ≠ []) : s.isEmpty = false := by
  rw [Bool.eq_false_iff]
  intro he
  exact h (congrArg String.data ((String.isEmpty_iff _).mp he))

lemma step_label_data_ne_nil (c : Int) : ("Step " ++ jsIntToString c).data ≠ [] := by
  rw [string_data_append]
  simp [show ("Step ".data) = 'S' :: "tep ".data from rfl]

lemma catchup_label_data_ne_nil (c : Int) :
    ("Catch-up (step " ++ jsIntToString c ++ ")").data ≠ [] := by
  rw [string_data_append, string_data_append]
  simp [show ("Catch-up (step ".data) = 'C' :: "atch-up (step ".data from rfl]

lemma step_label_has_digit (c : Int) :
    ∃ ch ∈ ("Step " ++ jsIntToString c).data, isDigitChar ch = true := by
  obtain ⟨ch, hch, hd⟩ := jsIntToString_has_digit c
  exact ⟨ch, by rw [string_data_append]; exact List.mem_append.mpr (Or.inr hch), hd⟩

lemma catchup_label_has_digit (c : Int) :
    ∃ ch ∈ ("Catch-up (step " ++ jsIntToString c ++ ")").data, isDigitChar ch = true := by
  obtain ⟨ch, hch, hd⟩ := jsIntToString_has_digit c
  refine ⟨ch, ?_, hd⟩
  rw [string_data_append, string_data_append]
  exact List.mem_append.mpr (Or.inl (List.mem_append.mpr (Or.inr hch)))

lemma normalize_unknown_code (c : Int)
    (hc : c ∉ CONSENSUS_STEP_METADATA.map Prod.fst) :
    (normalizeConsensusStep (some (.num c))).label =
      some (if c ≥ CATCHUP_STEP_THRESHOLD
            then "Catch-up (step " ++ jsIntToString c ++ ")"
            else "Step " ++ jsIntToString c) ∧
    (normalizeConsensusStep (some (.num c))).isCatchup =
      decide (c ≥ CATCHUP_STEP_THRESHOLD) := by
  have hlookup := stepMetaLookup_eq_none c hc
  by_cases hge : c ≥ CATCHUP_STEP_THRESHOLD
  · have htrim := trim_catchup_label c
    have hempty := label_ne_empty _ (catchup_label_data_ne_nil c)
    have hfind := noCanonicalMatch _ (catchup_label_has_digit c)
    simp only [normalizeConsensusStep, hlookup, if_pos hge, normaliseLabel,
      Option.some_orElse, Option.none_orElse,
      htrim, hempty, hfind, Bool.false_eq_true, if_false, Option.isNone_none,
      decide_eq_true_eq]
    simp [hge]
  · have htrim := trim_step_label c
    have hempty := label_ne_empty _ (step_label_data_ne_nil c)
    have hfind := noCanonicalMatch _ (step_label_has_digit c)
    have hany := step_label_indicators_none c
    simp only [normalizeConsensusStep, hlookup, if_neg hge, normaliseLabel,
      Option.some_orElse, Option.none_orElse,
      htrim, hempty, hfind, hany, Bool.false_eq_true, if_false,
      Option.isNone_none, decide_eq_true_eq]
    simp [hge, label_ne_empty _ (by
      show (jsToLower ("Step " ++ jsIntToString c)).data ≠ []
      show (("Step " ++ jsIntToString c).data.map lowerChar) ≠ []
      simp [step_label_data_ne_nil c])]

/-- C5 counterexample: numeric code 14 is absent from the table, yet its
label is `"Catch-up (step 14)"`, not the claimed `"Step 14"`. -/
theorem c5_step_classification_counterexample :
    (14 : Int) ∉ CONSENSUS_STEP_METADATA.map Prod.fst ∧
    (normalizeConsensusStep (some (.num 14))).label = some "Catch-up (step 14)" ∧
    (normalizeConsensusStep (some (.num 14))).label ≠ some "Step 14" := by
  refine ⟨by decide, by decide, by decide⟩

/-- C5 (amended): numeric codes 0–8 map to the canonical table (code 6 in
particular to label `"Commit"` with `isCatchup = false`, and code 11 to a
catch-up entry); a numeric code absent from the table yields label
`"Step \x7bcode\x7d"` when `code < 10` and `"Catch-up (step \x7bcode\x7d)"`
when `code ≥ 10`, with `isCatchup` true exactly when `code ≥ 10`. -/
theorem c5_step_classification_amended (c k : Int)
    (hc : c ∉ CONSENSUS_STEP_METADATA.map Prod.fst)
    (hk0 : 0 ≤ k) (hk8 : k ≤ 8) :
    ((stepMetaLookup k).isSome = true ∧
      (normalizeConsensusStep (some (.num k))).label =
        (stepMetaLookup k).map StepMeta.label ∧
      some (normalizeConsensusStep (some (.num k))).description =
        (stepMetaLookup k).map StepMeta.description ∧
      (normalizeConsensusStep (some (.num k))).isCatchup = false) ∧
    (normalizeConsensusStep (some (.num 6))).label = some "Commit" ∧
    (normalizeConsensusStep (some (.num 6))).isCatchup = false ∧
    (normalizeConsensusStep (some (.num 11))).isCatchup = true ∧
    ((normalizeConsensusStep (some (.num c))).label =
      some (if c ≥ CATCHUP_STEP_THRESHOLD
            then "Catch-up (step " ++ jsIntToString c ++ ")"
            else "Step " ++ jsIntToString c)) ∧
    ((normalizeConsensusStep (some (.num c))).isCatchup = true ↔
      CATCHUP_STEP_THRESHOLD ≤ c) := by
  obtain ⟨hlabel, hcatch⟩ := normalize_unknown_code c hc
  refine ⟨?_, by decide, by decide, by decide, hlabel, ?_⟩
  · interval_cases k <;> decide
  · rw [hcatch]
    simp [ge_iff_le]

/-- C5 witness: code 6 exercises the table clause and code 14 the
absent-code clause. -/
theorem c5_step_classification_amended_witness :
    ((14 : Int) ∉ CONSENSUS_STEP_METADATA.map Prod.fst ∧
      (0 : Int) ≤ 6 ∧ (6 : Int) ≤ 8) ∧
    (normalizeConsensusStep (some (.num 6))).label = some "Commit" ∧
    (normalizeConsensusStep (some (.num 14))).label =
      some (if (14 : Int) ≥ CATCHUP_STEP_THRESHOLD
            then "Catch-up (step " ++ jsIntToString 14 ++ ")"
            else "Step " ++ jsIntToString 14) ∧
    ((normalizeConsensusStep (some (.num 14))).isCatchup = true ↔
      CATCHUP_STEP_THRESHOLD ≤ (14 : Int)) := by
  have h := c5_step_classification_amended 14 6 (by decide) (by decide) (by decide)
  exact ⟨⟨by decide, by decide, by decide⟩, h.2.1, h.2.2.2.2.1, h.2.2.2.2.2⟩

/-! ## Claim about the health verdict invariant -/

lemma jsSetDedup_nodup (l : List String) : (jsSetDedup l).Nodup := by
  suffices h : ∀ (l acc : List String), acc.Nodup →
      (l.foldl (fun acc x => if x ∈ acc then acc else acc ++ [x]) acc).Nodup from
    h l [] (by simp)
  intro l
  induction l with
  | nil => exact fun acc h => h
  | cons x xs ih =>
      intro acc hacc
      rw [List.foldl_cons]
      by_cases hx : x ∈ acc
      · rw [if_pos hx]
        exact ih acc hacc
      · rw [if_neg hx]
        refine ih _ ?_
        rw [List.nodup_append]
        exact ⟨hacc, List.nodup_singleton x, by simpa using hx⟩

/-- C7: the evaluator's verdict satisfies `healthy = (issues.length == 0)`
for every input, and the outer error-message list produced by
`analyzeNodeHealth` (into which the issues are merged) is free of
duplicates under exact string equality. -/
theorem c7_health_invariant (status : Option StatusLike)
    (consensusState : Option ConsensusStateLike) (now : Int)
    (abciInfo : Option AbciInfoLike) (commit : Option CommitLike) :
    ((evaluateConsensusHealth status consensusState).healthy
      = (evaluateConsensusHealth status consensusState).issues.isEmpty) ∧
    (analyzeNodeHealth now status consensusState abciInfo commit).errorMessages.Nodup := by
  constructor
  · cases consensusState <;> rfl
  · cases status with
    | none => simp [analyzeNodeHealth]
    | some st =>
        show (jsSetDedup _).Nodup
        exact jsSetDedup_nodup _

/-! ## Claims about the orchestrator and the analysis merge -/

/-- C8 counterexample: `useCometBFT` has no request token.  Dispatch 1's
payload, completing after dispatch 2's, overwrites the state dispatch 2
wrote: the handler applies every completion unconditionally. -/
theorem c8_token_supersession_counterexample :
    (runCompletions ⟨none, none, none, true, []⟩
        [(⟨some "payload-of-dispatch-2", none, none, false, []⟩, none),
         (⟨some "payload-of-dispatch-1", none, none, false, []⟩, none)]).status =
      some "payload-of-dispatch-1" ∧
    some "payload-of-dispatch-1" ≠ some "payload-of-dispatch-2" := by
  exact ⟨rfl, by decide⟩

/-- C8 (amended): the `fetchData` completion handler of `useCometBFT`
carries no token check — every field except the merged `consensusHistory`
is taken from the completing payload unconditionally, so the last
completion to resolve wins even when it was dispatched earlier. -/
theorem c8_last_completion_wins (previous newData : DashboardDataM)
    (sample : Option ConsensusSampleM) :
    (applyFetchSuccess previous newData sample).status = newData.status ∧
    (applyFetchSuccess previous newData sample).consensusState = newData.consensusState ∧
    (applyFetchSuccess previous newData sample).error = newData.error ∧
    (applyFetchSuccess previous newData sample).loading = newData.loading :=
  ⟨rfl, rfl, rfl, rfl⟩

/-- C9: when either block fetch of the divergence analysis fails, the
computation rejects with that failure, and merging the failure into the
health details records it as `analysisError`, leaves `analysis` null, and
preserves the already-reported divergence verdict (height, cause and all
hashes) unchanged. -/
theorem c9_analysis_failure_atomicity (details : DivergenceHealthDetails)
    (msg e : String) (h : Int) (addr rpc : String)
    (nodeSummary : BlockSummaryS) (anyRef : Except String BlockSummaryS)
    (hh : details.height = some h) :
    computeDivergenceAnalysisModel addr rpc (.error e) anyRef = .error e ∧
    computeDivergenceAnalysisModel addr rpc (.ok nodeSummary) (.error e) = .error e ∧
    (applyDivergenceOutcome details (.error msg)).height = details.height ∧
    (applyDivergenceOutcome details (.error msg)).cause = details.cause ∧
    (applyDivergenceOutcome details (.error msg)).nodeAppHash = details.nodeAppHash ∧
    (applyDivergenceOutcome details (.error msg)).abciAppHash = details.abciAppHash ∧
    (applyDivergenceOutcome details (.error msg)).nodeLastResultsHash =
      details.nodeLastResultsHash ∧
    (applyDivergenceOutcome details (.error msg)).analysis = none ∧
    (applyDivergenceOutcome details (.error msg)).analysisError =
      some ("Failed to analyse divergence at height " ++ jsIntToString h ++
        ": " ++ msg) := by
  refine ⟨rfl, rfl, rfl, rfl, rfl, rfl, rfl, rfl, ?_⟩
  simp [applyDivergenceOutcome, hh]

/-- C9 witness: a failing reference fetch at height 42. -/
theorem c9_analysis_failure_atomicity_witness :
    ((⟨some 42, some .appHash, some "H1", some "H2", some "H3", none, none⟩ :
        DivergenceHealthDetails).height = some 42) ∧
    (applyDivergenceOutcome
        ⟨some 42, some .appHash, some "H1", some "H2", some "H3", none, none⟩
        (.error "HTTP 500: reference unreachable")).cause = some .appHash ∧
    (applyDivergenceOutcome
        ⟨some 42, some .appHash, some "H1", some "H2", some "H3", none, none⟩
        (.error "HTTP 500: reference unreachable")).analysisError =
      some ("Failed to analyse divergence at height " ++ jsIntToString 42 ++
        ": " ++ "HTTP 500: reference unreachable") := by
  have h := c9_analysis_failure_atomicity
    ⟨some 42, some .appHash, some "H1", some "H2", some "H3", none, none⟩
    "HTTP 500: reference unreachable" "x" 42 "ref" "https://ref"
    ⟨42, none, none, none, []⟩ (.error "x") rfl
  exact ⟨rfl, h.2.2.2.1, h.2.2.2.2.2.2.2.2⟩

end NodeDashboard
